import Mathlib

/-!
# A verification development for the QHexView widget engine

This file embeds the layout, addressing, selection and formatting engine of
the QHexView hex-viewer widget (qhexview.cpp) as executable Lean definitions,
and proves properties of the embedded code.

Conventions of the embedding:
* C++ `int`/`int64_t` quantities that are provably non-negative in every use
  relevant here (pixel geometry, scroll positions, sizes) are modelled as `Nat`;
  signed quantities that can genuinely be negative (the selection fields, which
  use `-1` as a sentinel, and raw mouse coordinates) are modelled as `Int`.
* C++ signed division/modulo truncate toward zero, so on `Int` we use
  `Int.tdiv`/`Int.tmod`; on non-negative values these agree with `Nat` division.
* `qBound lo v hi` is `max lo (min v hi)`, and `QScrollBar::setValue` clamps the
  stored value into `[0, maximum]`.
-/

namespace QHexView

/-- The `highlighting_` member: which column a mouse gesture is tracking. -/
inductive Highlighting where
  | hlNone
  | hlData
  | hlAscii
  deriving Repr, DecidableEq

/-- The state of the widget, restricted to the fields the engine reads and
writes: display flags, font metrics, grid parameters, scrollbars, data size
and the selection.  `dataSize` stands for `data_ ? data_->size() : 0`
(`clear` models `data_ = nullptr` by setting it to `0`). -/
structure HexViewState where
  showAddress : Bool
  showHex : Bool
  showAscii : Bool
  showComments : Bool
  showAddressSeparator : Bool
  /-- the `AddressSize` enum: `Address32 = 4`, `Address64 = 8` -/
  addressSize : Nat
  fontWidth : Nat
  fontHeight : Nat
  /-- words per row (`row_width_`) -/
  rowWidth : Nat
  /-- bytes per word (`word_width_`) -/
  wordWidth : Nat
  /-- `origin_ : address_t` -/
  origin : Nat
  /-- vertical scrollbar value/maximum -/
  vScrollValue : Nat
  vScrollMax : Nat
  /-- horizontal scrollbar value/maximum -/
  hScrollValue : Nat
  hScrollMax : Nat
  viewportHeight : Nat
  viewportWidth : Nat
  dataSize : Nat
  selectionStart : Int
  selectionEnd : Int
  highlighting : Highlighting
  deriving Repr, DecidableEq

/-- `bytesPerRow()` : `row_width_ * word_width_`. -/
def bytesPerRow (s : HexViewState) : Nat :=
  s.rowWidth * s.wordWidth

/-- `charsPerWord()` : `word_width_ * 2`. -/
def charsPerWord (s : HexViewState) : Nat :=
  s.wordWidth * 2

/-- `addressLen()` : `(address_size_ * CHAR_BIT) / 4` plus one for the
separator when shown. -/
def addressLen (s : HexViewState) : Nat :=
  (s.addressSize * 8) / 4 + (if s.showAddressSeparator then 1 else 0)

/-- `vertline1()` : x coordinate of the first divider. -/
def vertline1 (s : HexViewState) : Nat :=
  if s.showAddress then
    addressLen s * s.fontWidth + s.fontWidth / 2
  else
    0

/-- `hexDumpLeft()` : left edge of the hex-dump field. -/
def hexDumpLeft (s : HexViewState) : Nat :=
  vertline1 s + s.fontWidth / 2

/-- `vertline2()` : x coordinate of the second divider.  The element count
`row_width_ * (charsPerWord() + 1) - 1` is at least `2` in every valid
configuration (`row_width_ ≥ 1`), so the `Nat` subtraction is exact. -/
def vertline2 (s : HexViewState) : Nat :=
  if s.showHex then
    hexDumpLeft s + (s.rowWidth * (charsPerWord s + 1) - 1) * s.fontWidth + s.fontWidth / 2
  else
    vertline1 s

/-- `asciiDumpLeft()` : left edge of the ascii-dump field. -/
def asciiDumpLeft (s : HexViewState) : Nat :=
  vertline2 s + s.fontWidth / 2

/-- `vertline3()` : x coordinate of the third divider. -/
def vertline3 (s : HexViewState) : Nat :=
  if s.showAscii then
    asciiDumpLeft s + bytesPerRow s * s.fontWidth + s.fontWidth / 2
  else
    vertline2 s

/-- `commentLeft()` : left edge of the comment field. -/
def commentLeft (s : HexViewState) : Nat :=
  vertline3 s + s.fontWidth / 2

/-- `hasSelectedText()` : `!(selection_start_ == -1 || selection_end_ == -1)`. -/
def hasSelectedText (s : HexViewState) : Bool :=
  !(s.selectionStart == -1 || s.selectionEnd == -1)

/-- `isSelected(index)` : nested range test on the (possibly reversed)
selection interval, guarded by `index < dataSize()`. -/
def isSelected (s : HexViewState) (index : Int) : Bool :=
  if index < (s.dataSize : Int) then
    if s.selectionStart ≠ s.selectionEnd then
      if s.selectionStart < s.selectionEnd then
        decide (s.selectionStart ≤ index ∧ index < s.selectionEnd)
      else
        decide (s.selectionEnd ≤ index ∧ index < s.selectionStart)
    else
      false
  else
    false

/-- `deselect()` : reset the selection to the no-selection sentinel. -/
def deselect (s : HexViewState) : HexViewState :=
  { s with selectionStart := -1, selectionEnd := -1 }

/-- `selectAll()` : select `[0, dataSize())`. -/
def selectAll (s : HexViewState) : HexViewState :=
  { s with selectionStart := 0, selectionEnd := (s.dataSize : Int) }

/-- `clear()` : `data_ = nullptr`, after which `dataSize()` returns `0`.
The selection fields are not touched. -/
def clear (s : HexViewState) : HexViewState :=
  { s with dataSize := 0 }

/-- `normalizedOffset()` : first visible byte offset.  When the branch is
taken, `offset` is a positive multiple of `bytesPerRow`, so the `Nat`
subtraction is exact. -/
def normalizedOffset (s : HexViewState) : Nat :=
  let offset := s.vScrollValue * bytesPerRow s
  if s.origin ≠ 0 then
    if 0 < offset then offset + s.origin - bytesPerRow s else offset
  else
    offset

/-- `updateScrollbars()` : recompute both scrollbar maxima.  `maxval` can be
negative, so it is computed in `Int` and clamped by `std::max(0, ·)`
(`Int.toNat`). -/
def updateScrollbars (s : HexViewState) : HexViewState :=
  let maxval : Int :=
    ((s.dataSize / bytesPerRow s
        + (if s.dataSize % bytesPerRow s ≠ 0 then 1 else 0) : Nat) : Int)
      - ((s.viewportHeight / s.fontHeight : Nat) : Int)
  let hmax : Int := (((vertline3 s : Nat) : Int) - (s.viewportWidth : Int)).tdiv (s.fontWidth : Int)
  { s with vScrollMax := maxval.toNat, hScrollMax := hmax.toNat }

/-- `scrollTo(offset)` : store the sub-row origin, recompute the scrollbar
bounds, and set the scrollbar value to the (possibly incremented) row index,
clamped by `QScrollBar::setValue` into `[0, maximum]`. -/
def scrollTo (s : HexViewState) (offset : Nat) : HexViewState :=
  let bpr := bytesPerRow s
  let s1 := { s with origin := offset % bpr }
  let address := offset / bpr
  let s2 := updateScrollbars s1
  let address := if offset % bpr ≠ 0 then address + 1 else address
  { s2 with vScrollValue := min address s2.vScrollMax }

/-- One hex digit character, lowercase, as printed by `qsnprintf` with `%x`. -/
def hexDigitChar (n : Nat) : Char :=
  if n < 10 then Char.ofNat (48 + n) else Char.ofNat (87 + n)

/-- Numeric value of a lowercase hex digit character, inverse of
`hexDigitChar` on `0..15`. -/
def hexVal (c : Char) : Nat :=
  if 97 ≤ c.toNat then c.toNat - 87 else c.toNat - 48

/-- The digit list printed by `qsnprintf` with a `%0Nx` format for a value
below `16 ^ N`: exactly `N` hex digits, most significant first, with leading
zeros. -/
def toHexFixed : Nat → Nat → List Char
  | 0, _ => []
  | w + 1, v => toHexFixed w (v / 16) ++ [hexDigitChar (v % 16)]

/-- `toHexFixed` packaged as a string. -/
def toHexFixedStr (w v : Nat) : String :=
  String.mk (toHexFixed w v)

/-- Reads a string of hex digits back as an integer. -/
def parseHexDigits (l : List Char) : Nat :=
  l.foldl (fun acc c => 16 * acc + hexVal c) 0

/-- `parseHexDigits` on the characters of a string. -/
def parseHexStr (s : String) : Nat :=
  parseHexDigits s.data

/-- `formatAddress(address)` : split the address into two halves and print
them zero padded (a `%04x` pair for `Address32`, a `%08x` pair for
`Address64`), with a colon between them when `show_address_separator_` is
set.  The masked halves are below `2 ^ 16` (resp. `2 ^ 32`), so the `%0Nx`
output is exactly `N` digits (`toHexFixedStr`); the C masks `& 0xffff` and
`& 0xffffffff` are the corresponding `mod`, and `>> k` is `>>> k`. -/
def formatAddress (addressSize : Nat) (showSeparator : Bool) (address : Nat) : String :=
  if addressSize = 4 then
    let hi := (address >>> 16) % 65536
    let lo := address % 65536
    toHexFixedStr 4 hi ++ (if showSeparator then ":" else "") ++ toHexFixedStr 4 lo
  else if addressSize = 8 then
    let hi := (address >>> 32) % 4294967296
    let lo := address % 4294967296
    toHexFixedStr 8 hi ++ (if showSeparator then ":" else "") ++ toHexFixedStr 8 lo
  else
    ""

/-- Modelled from the spec: the 64-bit address format the specification
claims when `hideLeadingZeros` is enabled — the high 32-bit half masked to
its low 16 bits and printed `%04x`, the low half printed `%08x`, with the
separator between the halves when enabled.  The source of this revision has
no such option; this definition exists only to compare the claim against the
code. -/
def formatAddress64HideSpec (showSeparator : Bool) (address : Nat) : String :=
  let hi := ((address >>> 32) % 4294967296) % 65536
  let lo := address % 4294967296
  toHexFixedStr 4 hi ++ (if showSeparator then ":" else "") ++ toHexFixedStr 8 lo

/-- `setData(d)` : install a new data source (buffering a sequential device
changes nothing the engine observes beyond the size), force 64-bit addresses
for documents larger than `0xffffffff`, deselect, and recompute the
scrollbar bounds. -/
def setData (s : HexViewState) (newSize : Nat) : HexViewState :=
  let s1 := { s with dataSize := newSize }
  let s2 := if 4294967295 < s1.dataSize then { s1 with addressSize := 8 } else s1
  updateScrollbars (deselect s2)

/-- A byte of the row buffer: `row_data[index] & 0xff`. -/
def byteAt (rowData : List Nat) (index : Nat) : Nat :=
  rowData.getD index 0 % 256

/-- `formatBytes(row_data, index)` : assemble `word_width_` bytes starting at
`index` into a little-endian word (the C code ors the bytes shifted left by
`8 * k`; on the disjoint byte ranges that is this sum) and print it with
`%02x` / `%04x` / `%08x` / `%016llx`.  The `switch` has no case for other
word widths (the buffer would stay uninitialized there); those are
unreachable for valid configurations and modelled as the empty string. -/
def formatBytes (wordWidth : Nat) (rowData : List Nat) (index : Nat) : String :=
  match wordWidth with
  | 1 => toHexFixedStr 2 (byteAt rowData index)
  | 2 => toHexFixedStr 4 (byteAt rowData index + byteAt rowData (index + 1) * 256)
  | 4 => toHexFixedStr 8 (byteAt rowData index
          + byteAt rowData (index + 1) * 256
          + byteAt rowData (index + 2) * 65536
          + byteAt rowData (index + 3) * 16777216)
  | 8 => toHexFixedStr 16 (byteAt rowData index
          + byteAt rowData (index + 1) * 256
          + byteAt rowData (index + 2) * 65536
          + byteAt rowData (index + 3) * 16777216
          + byteAt rowData (index + 4) * 4294967296
          + byteAt rowData (index + 5) * 1099511627776
          + byteAt rowData (index + 6) * 281474976710656
          + byteAt rowData (index + 7) * 72057594037927936)
  | _ => ""

/-- The word index of the first fully visible word: `normalizedOffset()`
divided by `word_width_`, incremented when the origin is not word aligned
(the partial leading word at the top of the viewport is skipped). -/
def startWordOffset (s : HexViewState) : Nat :=
  normalizedOffset s / s.wordWidth + (if s.origin % s.wordWidth ≠ 0 then 1 else 0)

/-- `pixelToWord(x, y)` : convert a pixel position into a logical word
index, switching on the current highlighting mode.  `qBound(lo, v, hi)` is
`max lo (min v hi)`; after the clamp and the subtraction of the left edge
the x value is non-negative (`Int.toNat`), so the subsequent divisions are
`Nat` divisions, while `y` is divided with the C truncating division
`Int.tdiv`.  The comparison `fmod(x, font_width_) >= font_width_ / 2` is on
a non-negative integer x, so it is `x % fw ≥ fw / 2` with integer division
on the right.  In the default (`Highlighting_None`) branch the release
build leaves x and y unscaled (`Q_ASSERT` compiles out) and falls through
to the same final formula on the raw coordinates. -/
def pixelToWord (s : HexViewState) (x y : Int) : Int :=
  match s.highlighting with
  | .hlData =>
    let xb := max ((vertline1 s : Nat) : Int)
      (min x (((vertline2 s : Nat) : Int) + (s.fontWidth : Int)))
    let x1 := (xb - ((vertline1 s : Nat) : Int)).toNat
    let xc := x1 / s.fontWidth + (if s.fontWidth / 2 ≤ x1 % s.fontWidth then 1 else 0)
    let yr := y.tdiv (s.fontHeight : Int)
    let xw := xc / (charsPerWord s + 1)
    yr * (s.rowWidth : Int) + (xw : Int) + (startWordOffset s : Int)
  | .hlAscii =>
    let xb := max ((asciiDumpLeft s : Nat) : Int) (min x ((vertline3 s : Nat) : Int))
    let x1 := (xb - ((asciiDumpLeft s : Nat) : Int)).toNat
    let xc := x1 / s.fontWidth
    let yr := y.tdiv (s.fontHeight : Int)
    let xw := xc / s.wordWidth
    yr * (s.rowWidth : Int) + (xw : Int) + (startWordOffset s : Int)
  | .hlNone =>
    y * (s.rowWidth : Int) + x + (startWordOffset s : Int)

/-- The Data-mode pixel-to-word computation as claim C1 words it, with
"remainder of x by cw at least half a cell" read literally as the exact
rational half, `2 * (x mod cw) ≥ cw`. -/
def pixelToWordDataClaim (s : HexViewState) (x y : Int) : Int :=
  let xcl := (max ((vertline1 s : Nat) : Int)
      (min x (((vertline2 s : Nat) : Int) + (s.fontWidth : Int)))
      - ((vertline1 s : Nat) : Int)).toNat
  let col := (xcl / s.fontWidth
      + (if s.fontWidth ≤ 2 * (xcl % s.fontWidth) then 1 else 0)) / (2 * s.wordWidth + 1)
  let row := y.tdiv (s.fontHeight : Int)
  row * (s.rowWidth : Int) + (col : Int) + (startWordOffset s : Int)

/-- The amended Data-mode formula: as the claim, except that the rounding
threshold is the integer half cell `cw / 2` (rounded down), matching the
integer division in the source. -/
def pixelToWordDataAmended (s : HexViewState) (x y : Int) : Int :=
  let xcl := (max ((vertline1 s : Nat) : Int)
      (min x (((vertline2 s : Nat) : Int) + (s.fontWidth : Int)))
      - ((vertline1 s : Nat) : Int)).toNat
  let col := (xcl / s.fontWidth
      + (if s.fontWidth / 2 ≤ xcl % s.fontWidth then 1 else 0)) / (2 * s.wordWidth + 1)
  let row := y.tdiv (s.fontHeight : Int)
  row * (s.rowWidth : Int) + (col : Int) + (startWordOffset s : Int)

/-- Shift+Right in `keyPressEvent`, reached only with an existing
selection: a degenerate selection first pulls the start back a word, then
the end is extended a word when `selection_end_ / word_width_ < dataSize()`
(C signed division, `Int.tdiv`). -/
def keyShiftRight (s : HexViewState) : HexViewState :=
  let s1 := if s.selectionStart = s.selectionEnd
            then { s with selectionStart := s.selectionStart - (s.wordWidth : Int) }
            else s
  if s1.selectionEnd.tdiv (s1.wordWidth : Int) < (s1.dataSize : Int)
  then { s1 with selectionEnd := s1.selectionEnd + (s1.wordWidth : Int) }
  else s1

/-- Shift+Left in `keyPressEvent`: a selection exactly one word wide
collapses (start forward, end backward one word each), then the end moves
back one word when `selection_end_ / word_width_ > 0`. -/
def keyShiftLeft (s : HexViewState) : HexViewState :=
  let s1 := if s.selectionEnd - (s.wordWidth : Int) = s.selectionStart
            then { s with selectionStart := s.selectionStart + (s.wordWidth : Int),
                          selectionEnd := s.selectionEnd - (s.wordWidth : Int) }
            else s
  if 0 < s1.selectionEnd.tdiv (s1.wordWidth : Int)
  then { s1 with selectionEnd := s1.selectionEnd - (s1.wordWidth : Int) }
  else s1

/-- Shift+Up in `keyPressEvent`: a selection exactly one word wide moves
its start forward one word, then the end moves up a row.  The trailing
conditional is translated verbatim: `if (selection_end_ == 0)
selection_end_ = 0;` — it never changes the value. -/
def keyShiftUp (s : HexViewState) : HexViewState :=
  let s1 := if s.selectionEnd - (s.wordWidth : Int) = s.selectionStart
            then { s with selectionStart := s.selectionStart + (s.wordWidth : Int) }
            else s
  let e := s1.selectionEnd - (s1.rowWidth : Int)
  { s1 with selectionEnd := if e = 0 then 0 else e }

/-- The scroll-adjusted x coordinate of a mouse event:
`event->x() + horizontalScrollBar()->value() * font_width_`. -/
def mouseEventX (s : HexViewState) (ex : Int) : Int :=
  ex + ((s.hScrollValue * s.fontWidth : Nat) : Int)

/-- The highlighting mode `mousePressEvent` chooses from the adjusted x
coordinate: `Data` strictly left of `vertline2()`, `Ascii` from there on. -/
def mousePressHighlighting (s : HexViewState) (x : Int) : Highlighting :=
  if x < ((vertline2 s : Nat) : Int) then .hlData else .hlAscii

/-- The word index `mousePressEvent` computes: set the highlighting mode
from the x coordinate, then `pixelToWord`. -/
def mousePressWordIndex (s : HexViewState) (ex ey : Int) : Int :=
  pixelToWord { s with highlighting := mousePressHighlighting s (mouseEventX s ex) }
    (mouseEventX s ex) ey

/-- The byte offset of a clicked word: `offset * word_width_`, pulled back
by the width of the partial leading word when the origin is not word
aligned (`if(origin_) { if(origin_ % word_width_) { ... } }`). -/
def wordToByteOffset (s : HexViewState) (offset : Int) : Int :=
  let b := offset * (s.wordWidth : Int)
  if s.origin ≠ 0 ∧ s.origin % s.wordWidth ≠ 0
  then b - ((s.wordWidth : Int) - ((s.origin % s.wordWidth : Nat) : Int))
  else b

/-- `mousePressEvent` for the left button: choose the highlighting mode,
convert the pixel position to a word index and byte offset, then either
move the selection end (shift with an existing selection), start a fresh
one-word selection, or — when the word index is not below `dataSize()` —
reset to the no-selection state. -/
def mousePressLeft (s : HexViewState) (ex ey : Int) (shift : Bool) : HexViewState :=
  let s1 := { s with highlighting := mousePressHighlighting s (mouseEventX s ex) }
  let offset := pixelToWord s1 (mouseEventX s ex) ey
  let byteOffset := wordToByteOffset s1 offset
  if offset < (s1.dataSize : Int) then
    if hasSelectedText s1 && shift then
      { s1 with selectionEnd := byteOffset }
    else
      { s1 with selectionStart := byteOffset,
                selectionEnd := byteOffset + (s1.wordWidth : Int) }
  else
    { s1 with selectionStart := -1, selectionEnd := -1 }

/-- A concrete valid configuration used to witness the layout invariant. -/
def w9 : HexViewState where
  showAddress := true
  showHex := true
  showAscii := true
  showComments := true
  showAddressSeparator := true
  addressSize := 8
  fontWidth := 8
  fontHeight := 16
  rowWidth := 16
  wordWidth := 1
  origin := 0
  vScrollValue := 0
  vScrollMax := 0
  hScrollValue := 0
  hScrollMax := 0
  viewportHeight := 320
  viewportWidth := 800
  dataSize := 256
  selectionStart := -1
  selectionEnd := -1
  highlighting := .hlNone

/-- A Data-highlighting configuration with an odd character cell width
(`cw = 3`), exercising the rounding threshold of `pixelToWord`. -/
def c1State : HexViewState :=
  { w9 with showAddress := false, fontWidth := 3, fontHeight := 10,
            highlighting := .hlData }

/-- A state selecting `[5, 6)` with word width 1 and row width 16. -/
def c3State : HexViewState :=
  { w9 with selectionStart := 5, selectionEnd := 6 }

/-- A configuration whose viewport shows two rows, so that the vertical
scrollbar maximum is positive. -/
def c8State : HexViewState :=
  { w9 with viewportHeight := 32 }

/-- An empty document with a stale selection. -/
def c10State : HexViewState :=
  { w9 with dataSize := 0, selectionStart := 2, selectionEnd := 3 }

end QHexView

namespace QHexView

/-- C9: for every valid configuration (`rowWidth ≥ 1`, `wordWidth ∈ {1,2,4,8}`,
`addressSize ∈ {4,8}`, any show flags, any character cell width), the three
vertical divider lines satisfy `0 ≤ line1 ≤ line2 ≤ line3`. -/
theorem vertlines_ordered (s : HexViewState)
    (hrw : 1 ≤ s.rowWidth)
    (hww : s.wordWidth = 1 ∨ s.wordWidth = 2 ∨ s.wordWidth = 4 ∨ s.wordWidth = 8)
    (has : s.addressSize = 4 ∨ s.addressSize = 8) :
    0 ≤ vertline1 s ∧ vertline1 s ≤ vertline2 s ∧ vertline2 s ≤ vertline3 s := by
  refine ⟨Nat.zero_le _, ?_, ?_⟩
  · unfold vertline2 hexDumpLeft
    split
    · exact le_trans (Nat.le_add_right _ _)
        (le_trans (Nat.le_add_right _ _) (Nat.le_add_right _ _))
    · exact le_refl _
  · unfold vertline3 asciiDumpLeft
    split
    · exact le_trans (Nat.le_add_right _ _)
        (le_trans (Nat.le_add_right _ _) (Nat.le_add_right _ _))
    · exact le_refl _

/-- Witness for `vertlines_ordered` at a concrete valid configuration. -/
theorem vertlines_ordered_witness :
    0 ≤ vertline1 w9 ∧ vertline1 w9 ≤ vertline2 w9 ∧ vertline2 w9 ≤ vertline3 w9 :=
  vertlines_ordered w9 (by decide) (Or.inl rfl) (Or.inr rfl)

/-- C6: `isSelected i` is true iff `i < dataSize()` and `i` lies in the
half-open interval from `min start end` to `max start end`; in particular it
is false for every `i` whenever `start = end` (including the no-selection
state `(-1, -1)`). -/
theorem isSelected_spec (s : HexViewState) (i : Int) :
    (isSelected s i = true ↔
      i < (s.dataSize : Int)
        ∧ min s.selectionStart s.selectionEnd ≤ i
        ∧ i < max s.selectionStart s.selectionEnd) ∧
    (s.selectionStart = s.selectionEnd → isSelected s i = false) := by
  unfold isSelected
  constructor
  · split_ifs with h1 h2 h3 <;> simp <;> omega
  · intro h
    split_ifs <;> simp_all

/-- Witness for `isSelected_spec`: at the no-selection state the query is
false. -/
theorem isSelected_spec_witness : isSelected w9 0 = false :=
  (isSelected_spec w9 0).2 rfl

theorem toHexFixed_length (w v : Nat) : (toHexFixed w v).length = w := by
  induction w generalizing v with
  | zero => rfl
  | succ n ih => simp [toHexFixed, ih]

theorem toHexFixedStr_length (w v : Nat) : (toHexFixedStr w v).length = w := by
  simp [toHexFixedStr, String.length, toHexFixed_length]

theorem parseHexDigits_append (xs : List Char) (c : Char) :
    parseHexDigits (xs ++ [c]) = 16 * parseHexDigits xs + hexVal c := by
  simp [parseHexDigits, List.foldl_append]

theorem hexVal_hexDigitChar (d : Nat) (h : d < 16) :
    hexVal (hexDigitChar d) = d := by
  interval_cases d <;> decide

/-- Decoding the fixed-width hex print of a value in range gives the value
back. -/
theorem parseHex_toHexFixed (w v : Nat) (h : v < 16 ^ w) :
    parseHexDigits (toHexFixed w v) = v := by
  induction w generalizing v with
  | zero =>
      have hv : v = 0 := by simpa using h
      simp [hv, toHexFixed, parseHexDigits]
  | succ n ih =>
      have hv : v / 16 < 16 ^ n := Nat.div_lt_of_lt_mul (by rw [← pow_succ']; exact h)
      rw [toHexFixed, parseHexDigits_append, ih _ hv,
        hexVal_hexDigitChar _ (Nat.mod_lt _ (by norm_num))]
      exact Nat.div_add_mod v 16

theorem parseHexStr_toHexFixedStr (w v : Nat) (h : v < 16 ^ w) :
    parseHexStr (toHexFixedStr w v) = v := by
  simpa [parseHexStr, toHexFixedStr] using parseHex_toHexFixed w v h

/-- C7: for every window of bytes, the word formatter produces a hex string
of length `2 * wordWidth` whose value, parsed back as an integer, is the
little-endian decoding of the window (byte 0 least significant), for word
widths 1, 2, 4 and 8 with output lengths 2, 4, 8 and 16. -/
theorem formatBytes_roundtrip (b0 b1 b2 b3 b4 b5 b6 b7 : Nat)
    (h0 : b0 < 256) (h1 : b1 < 256) (h2 : b2 < 256) (h3 : b3 < 256)
    (h4 : b4 < 256) (h5 : b5 < 256) (h6 : b6 < 256) (h7 : b7 < 256) :
    ((formatBytes 4 [b0, b1, b2, b3] 0).length = 8
      ∧ parseHexStr (formatBytes 4 [b0, b1, b2, b3] 0)
          = b0 + b1 * 256 + b2 * 65536 + b3 * 16777216)
    ∧ ((formatBytes 1 [b0] 0).length = 2
      ∧ parseHexStr (formatBytes 1 [b0] 0) = b0)
    ∧ ((formatBytes 2 [b0, b1] 0).length = 4
      ∧ parseHexStr (formatBytes 2 [b0, b1] 0) = b0 + b1 * 256)
    ∧ ((formatBytes 8 [b0, b1, b2, b3, b4, b5, b6, b7] 0).length = 16
      ∧ parseHexStr (formatBytes 8 [b0, b1, b2, b3, b4, b5, b6, b7] 0)
          = b0 + b1 * 256 + b2 * 65536 + b3 * 16777216
            + b4 * 4294967296 + b5 * 1099511627776
            + b6 * 281474976710656 + b7 * 72057594037927936) := by
  have m0 := Nat.mod_eq_of_lt h0
  have m1 := Nat.mod_eq_of_lt h1
  have m2 := Nat.mod_eq_of_lt h2
  have m3 := Nat.mod_eq_of_lt h3
  have m4 := Nat.mod_eq_of_lt h4
  have m5 := Nat.mod_eq_of_lt h5
  have m6 := Nat.mod_eq_of_lt h6
  have m7 := Nat.mod_eq_of_lt h7
  refine ⟨⟨?_, ?_⟩, ⟨?_, ?_⟩, ⟨?_, ?_⟩, ⟨?_, ?_⟩⟩ <;>
    simp only [formatBytes, byteAt, List.getD_cons_zero, List.getD_cons_succ,
      m0, m1, m2, m3, m4, m5, m6, m7, toHexFixedStr_length]
  · exact parseHexStr_toHexFixedStr 8 _
      (by have hp : (16 : Nat) ^ 8 = 4294967296 := by norm_num
          rw [hp]; omega)
  · exact parseHexStr_toHexFixedStr 2 _
      (by have hp : (16 : Nat) ^ 2 = 256 := by norm_num
          rw [hp]; omega)
  · exact parseHexStr_toHexFixedStr 4 _
      (by have hp : (16 : Nat) ^ 4 = 65536 := by norm_num
          rw [hp]; omega)
  · exact parseHexStr_toHexFixedStr 16 _
      (by have hp : (16 : Nat) ^ 16 = 18446744073709551616 := by norm_num
          rw [hp]; omega)

/-- Witness for `formatBytes_roundtrip` at the bytes
`[0x78, 0x56, 0x34, 0x12]`, which format as the string of the number
`0x12345678`. -/
theorem formatBytes_roundtrip_witness :
    formatBytes 4 [120, 86, 52, 18] 0 = "12345678"
      ∧ parseHexStr (formatBytes 4 [120, 86, 52, 18] 0) = 305419896 := by
  constructor
  · rfl
  · exact ((formatBytes_roundtrip 120 86 52 18 0 0 0 0 (by decide) (by decide)
      (by decide) (by decide) (by decide) (by decide) (by decide)
      (by decide)).1.2).trans (by norm_num)

/-- C4 counterexample: at the 64-bit address `0x123456789` the code prints
the high half as 8 hex digits for either separator setting; the claimed
hideLeadingZeros behaviour (high half masked to 16 bits, printed as 4
digits) is produced by no configuration of this revision's `formatAddress`. -/
theorem formatAddress_no_hideLeadingZeros :
    formatAddress 8 true 4886718345 = "00000001:23456789"
      ∧ formatAddress64HideSpec true 4886718345 = "0001:23456789"
      ∧ formatAddress 8 true 4886718345 ≠ formatAddress64HideSpec true 4886718345
      ∧ formatAddress 8 false 4886718345 = "0000000123456789"
      ∧ formatAddress 8 false 4886718345 ≠ formatAddress64HideSpec false 4886718345 := by
  refine ⟨rfl, rfl, ?_, rfl, ?_⟩ <;> decide

/-- C4 amended: for every 64-bit address, `formatAddress` splits the address
into two 32-bit halves and prints each as exactly 8 hex digits (`%08x`) —
this revision has no hideLeadingZeros option — with the separator inserted
between the halves when enabled; decoding the two printed halves recovers
the address. -/
theorem formatAddress64_spec (showSeparator : Bool) (address : Nat)
    (h : address < 18446744073709551616) :
    formatAddress 8 showSeparator address
        = toHexFixedStr 8 (address / 4294967296)
          ++ (if showSeparator then ":" else "")
          ++ toHexFixedStr 8 (address % 4294967296)
      ∧ (formatAddress 8 showSeparator address).length
          = (if showSeparator then 17 else 16)
      ∧ parseHexStr (toHexFixedStr 8 (address / 4294967296)) * 4294967296
          + parseHexStr (toHexFixedStr 8 (address % 4294967296)) = address := by
  have hs : address >>> 32 = address / 4294967296 := by
    rw [Nat.shiftRight_eq_div_pow]
  have hdivlt : address / 4294967296 < 4294967296 := by omega
  have hp : (16 : Nat) ^ 8 = 4294967296 := by norm_num
  have heq : formatAddress 8 showSeparator address
      = toHexFixedStr 8 (address / 4294967296)
        ++ (if showSeparator then ":" else "")
        ++ toHexFixedStr 8 (address % 4294967296) := by
    simp only [formatAddress, hs]
    rw [Nat.mod_eq_of_lt hdivlt]
    norm_num
  refine ⟨heq, ?_, ?_⟩
  · rw [heq, String.length_append, String.length_append,
      toHexFixedStr_length, toHexFixedStr_length]
    cases showSeparator <;> rfl
  · rw [parseHexStr_toHexFixedStr 8 _ (by rw [hp]; omega),
      parseHexStr_toHexFixedStr 8 _ (by rw [hp]; omega), Nat.mul_comm]
    exact Nat.div_add_mod address 4294967296

/-- Witness for `formatAddress64_spec` at the address `0x123456789`. -/
theorem formatAddress64_spec_witness :
    formatAddress 8 true 4886718345
        = toHexFixedStr 8 (4886718345 / 4294967296)
          ++ ":"
          ++ toHexFixedStr 8 (4886718345 % 4294967296)
      ∧ (formatAddress 8 true 4886718345).length = 17
      ∧ parseHexStr (toHexFixedStr 8 (4886718345 / 4294967296)) * 4294967296
          + parseHexStr (toHexFixedStr 8 (4886718345 % 4294967296)) = 4886718345 := by
  have h := formatAddress64_spec true 4886718345 (by norm_num)
  simpa using h

/-- C5 counterexample: `clear()` does not reset an existing selection; on a
state selecting `[3, 7)` both selection fields survive `clear` unchanged,
so the state after `clear` is not the no-selection state `(-1, -1)`. -/
theorem clear_keeps_selection :
    (clear { w9 with selectionStart := 3, selectionEnd := 7 }).selectionStart = 3
      ∧ (clear { w9 with selectionStart := 3, selectionEnd := 7 }).selectionEnd = 7
      ∧ ¬((clear { w9 with selectionStart := 3, selectionEnd := 7 }).selectionStart = -1
          ∧ (clear { w9 with selectionStart := 3, selectionEnd := 7 }).selectionEnd = -1) := by
  refine ⟨rfl, rfl, ?_⟩
  decide

/-- C5 amended: `deselect()` and `setData(d)` always leave the selection in
the no-selection state `(-1, -1)` regardless of the selection beforehand;
`clear()` leaves both selection fields unchanged (it only drops the data
source). -/
theorem deselect_setData_reset_clear_preserves (s : HexViewState) (newSize : Nat) :
    (deselect s).selectionStart = -1 ∧ (deselect s).selectionEnd = -1
      ∧ (setData s newSize).selectionStart = -1
      ∧ (setData s newSize).selectionEnd = -1
      ∧ (clear s).selectionStart = s.selectionStart
      ∧ (clear s).selectionEnd = s.selectionEnd := by
  refine ⟨rfl, rfl, ?_, ?_, rfl, rfl⟩ <;>
    simp only [setData, updateScrollbars, deselect]

/-- C1 counterexample: with an odd character cell `cw = 3`, at `x = 7`
(remainder 1, below the exact half cell 1.5 but not below the integer half
`3 / 2 = 1`), the source rounds the column up while the claim's
round-to-nearest threshold does not, and the resulting word indices differ. -/
theorem pixelToWord_rounding_counterexample :
    pixelToWord c1State 7 0 = 1
      ∧ pixelToWordDataClaim c1State 7 0 = 0
      ∧ pixelToWord c1State 7 0 ≠ pixelToWordDataClaim c1State 7 0 := by
  refine ⟨?_, ?_, ?_⟩ <;> decide

/-- C1 amended: in Data-highlighting mode `pixelToWord` computes the word
index by clamping x to `[line1, line2 + cw]`, subtracting `line1`, taking
`col = x / cw` plus one exactly when the remainder of x by cw is at least
the integer half cell `cw / 2` (rounded down — not the exact rational
half), dividing by `2 * wordWidth + 1`, dividing y by the cell height, and
returning `row * rowWidth + col + startWordOffset` with `startWordOffset =
normalizedOffset / wordWidth` incremented exactly when
`origin % wordWidth ≠ 0`. -/
theorem pixelToWord_data_amended (s : HexViewState) (x y : Int)
    (h : s.highlighting = .hlData) :
    pixelToWord s x y = pixelToWordDataAmended s x y := by
  simp only [pixelToWord, h, pixelToWordDataAmended, charsPerWord, Nat.mul_comm]

/-- Witness for `pixelToWord_data_amended` at a concrete state and pixel. -/
theorem pixelToWord_data_amended_witness :
    pixelToWord c1State 7 0 = pixelToWordDataAmended c1State 7 0 :=
  pixelToWord_data_amended c1State 7 0 rfl

/-- C3: the claim that Shift+Up clamps the selection end at 0 fails.  On
the one-word selection `[5, 6)` (word width 1, row width 16) the collapse
step moves the start to 6, the end becomes `6 - 16 = -10`, and the source's
clamp `if (selection_end_ == 0) selection_end_ = 0;` is a no-op, so the end
stays negative. -/
theorem keyShiftUp_negative_end :
    (keyShiftUp c3State).selectionStart = 6
      ∧ (keyShiftUp c3State).selectionEnd = -10
      ∧ (keyShiftUp c3State).selectionEnd < 0 := by
  refine ⟨?_, ?_, ?_⟩ <;> decide

/-- C10: a left press whose computed word index is not below `dataSize()`
always resets the selection to `(-1, -1)`, discarding any existing
selection even when shift is held. -/
theorem mousePress_beyond_end_resets (s : HexViewState) (ex ey : Int) (shift : Bool)
    (h : (s.dataSize : Int) ≤ mousePressWordIndex s ex ey) :
    (mousePressLeft s ex ey shift).selectionStart = -1
      ∧ (mousePressLeft s ex ey shift).selectionEnd = -1 := by
  have h2 : ¬ (mousePressWordIndex s ex ey < (s.dataSize : Int)) := not_lt.mpr h
  simp only [mousePressWordIndex] at h2
  simp only [mousePressLeft]
  rw [if_neg h2]
  exact ⟨rfl, rfl⟩

/-- Witness for `mousePress_beyond_end_resets`: a shift-click on an empty
document discards the stale selection. -/
theorem mousePress_beyond_end_resets_witness :
    (mousePressLeft c10State 0 0 true).selectionStart = -1
      ∧ (mousePressLeft c10State 0 0 true).selectionEnd = -1 :=
  mousePress_beyond_end_resets c10State 0 0 true (by decide)

/-- C2 counterexample: in the concrete scenario (16 one-byte words per row,
16 bytes of data, pristine view, click at the pixel center of hex word 3 of
the first row) the selection after click, Shift+Right, Shift+Right,
Shift+Left is `[3, 5)` — the end moved back one word — not `[4, 6)` as
claimed. -/
theorem click_shift_scenario_counterexample :
    (mousePressLeft w9 224 5 false).selectionStart = 3
      ∧ (mousePressLeft w9 224 5 false).selectionEnd = 4
      ∧ (keyShiftRight (keyShiftRight (mousePressLeft w9 224 5 false))).selectionStart = 3
      ∧ (keyShiftRight (keyShiftRight (mousePressLeft w9 224 5 false))).selectionEnd = 6
      ∧ (keyShiftLeft (keyShiftRight (keyShiftRight (mousePressLeft w9 224 5 false)))).selectionStart = 3
      ∧ (keyShiftLeft (keyShiftRight (keyShiftRight (mousePressLeft w9 224 5 false)))).selectionEnd = 5
      ∧ ¬((keyShiftLeft (keyShiftRight (keyShiftRight (mousePressLeft w9 224 5 false)))).selectionStart = 4
          ∧ (keyShiftLeft (keyShiftRight (keyShiftRight (mousePressLeft w9 224 5 false)))).selectionEnd = 6) := by
  refine ⟨?_, ?_, ?_, ?_, ?_, ?_, ?_⟩ <;> decide

/-- C2 amended: with `bytesPerRow = 16` (word width 1, row width 16), data
size at least 16 and a pristine view (origin 0, no scroll), a left click
selecting word 3 yields the selection `[3, 4)`; Shift+Right twice then
yields `[3, 6)`; Shift+Left once after that moves only the end back one
word, yielding `[3, 5)` (the collapse rule does not fire since the
selection is wider than one word). -/
theorem click_shift_scenario (s : HexViewState) (ex ey : Int)
    (hww : s.wordWidth = 1) (hrw : s.rowWidth = 16)
    (hor : s.origin = 0) (hsv : s.vScrollValue = 0)
    (hds : 16 ≤ s.dataSize)
    (hword : mousePressWordIndex s ex ey = 3) :
    (mousePressLeft s ex ey false).selectionStart = 3
      ∧ (mousePressLeft s ex ey false).selectionEnd = 4
      ∧ (keyShiftRight (keyShiftRight (mousePressLeft s ex ey false))).selectionStart = 3
      ∧ (keyShiftRight (keyShiftRight (mousePressLeft s ex ey false))).selectionEnd = 6
      ∧ (keyShiftLeft (keyShiftRight (keyShiftRight (mousePressLeft s ex ey false)))).selectionStart = 3
      ∧ (keyShiftLeft (keyShiftRight (keyShiftRight (mousePressLeft s ex ey false)))).selectionEnd = 5 := by
  have hword' : pixelToWord
      { s with highlighting := mousePressHighlighting s (mouseEventX s ex) }
      (mouseEventX s ex) ey = 3 := hword
  have hA : (3 : Int) < (s.dataSize : Int) := by omega
  have hclick : mousePressLeft s ex ey false
      = { s with highlighting := mousePressHighlighting s (mouseEventX s ex),
                 selectionStart := 3, selectionEnd := 4 } := by
    simp only [mousePressLeft, hword']
    rw [if_pos hA]
    simp only [Bool.and_false, if_false, wordToByteOffset, hor, hww]
    norm_num
  rw [hclick]
  have hr1 : keyShiftRight
      { s with highlighting := mousePressHighlighting s (mouseEventX s ex),
               selectionStart := 3, selectionEnd := 4 }
      = { s with highlighting := mousePressHighlighting s (mouseEventX s ex),
                 selectionStart := 3, selectionEnd := 5 } := by
    simp only [keyShiftRight, hww]
    norm_num
    omega
  have hr2 : keyShiftRight
      { s with highlighting := mousePressHighlighting s (mouseEventX s ex),
               selectionStart := 3, selectionEnd := 5 }
      = { s with highlighting := mousePressHighlighting s (mouseEventX s ex),
                 selectionStart := 3, selectionEnd := 6 } := by
    simp only [keyShiftRight, hww]
    norm_num
    omega
  have hl : keyShiftLeft
      { s with highlighting := mousePressHighlighting s (mouseEventX s ex),
               selectionStart := 3, selectionEnd := 6 }
      = { s with highlighting := mousePressHighlighting s (mouseEventX s ex),
                 selectionStart := 3, selectionEnd := 5 } := by
    simp only [keyShiftLeft, hww]
    norm_num
  rw [hr1, hr2, hl]
  exact ⟨rfl, rfl, rfl, rfl, rfl, rfl⟩

/-- Witness for `click_shift_scenario` at the concrete default
configuration, clicking the pixel center of hex word 3 of the first row. -/
theorem click_shift_scenario_witness :
    (mousePressLeft { w9 with dataSize := 16 } 224 5 false).selectionStart = 3
      ∧ (mousePressLeft { w9 with dataSize := 16 } 224 5 false).selectionEnd = 4
      ∧ (keyShiftRight (keyShiftRight (mousePressLeft { w9 with dataSize := 16 } 224 5 false))).selectionStart = 3
      ∧ (keyShiftRight (keyShiftRight (mousePressLeft { w9 with dataSize := 16 } 224 5 false))).selectionEnd = 6
      ∧ (keyShiftLeft (keyShiftRight (keyShiftRight (mousePressLeft { w9 with dataSize := 16 } 224 5 false)))).selectionStart = 3
      ∧ (keyShiftLeft (keyShiftRight (keyShiftRight (mousePressLeft { w9 with dataSize := 16 } 224 5 false)))).selectionEnd = 5 :=
  click_shift_scenario { w9 with dataSize := 16 } 224 5 rfl rfl rfl rfl
    (by decide) (by decide)

/-- C8: when the row index computed by `scrollTo(b)` is stored on the
vertical scrollbar without clamping, `normalizedOffset()` afterwards
returns exactly `b`: the scroll position round-trips through the origin and
the row index. -/
theorem scrollTo_normalizedOffset (s : HexViewState) (b : Nat)
    (hbpr : 0 < bytesPerRow s)
    (hnoclamp : (scrollTo s b).vScrollValue
        = b / bytesPerRow s + (if b % bytesPerRow s ≠ 0 then 1 else 0)) :
    normalizedOffset (scrollTo s b) = b := by
  have hbpr' : bytesPerRow (scrollTo s b) = bytesPerRow s := rfl
  have horg : (scrollTo s b).origin = b % bytesPerRow s := rfl
  unfold normalizedOffset
  rw [hnoclamp, hbpr', horg]
  by_cases hmod : b % bytesPerRow s = 0
  · simp only [hmod, if_neg (by simp : ¬ (0 : Nat) ≠ 0), ite_false]
    have : b / bytesPerRow s * bytesPerRow s = b := Nat.div_mul_cancel (Nat.dvd_of_mod_eq_zero hmod)
    simpa [hmod] using this
  · rw [if_pos hmod, if_pos hmod]
    have hpos : 0 < (b / bytesPerRow s + 1) * bytesPerRow s := by positivity
    rw [if_pos hpos]
    have hdm : b / bytesPerRow s * bytesPerRow s + b % bytesPerRow s = b :=
      Nat.div_add_mod' b (bytesPerRow s)
    have hmul : (b / bytesPerRow s + 1) * bytesPerRow s
        = b / bytesPerRow s * bytesPerRow s + bytesPerRow s := by ring
    rw [hmul]
    omega

/-- Witness for `scrollTo_normalizedOffset`: scrolling a 256-byte document
with 16-byte rows and a two-row viewport to byte 35 and reading back. -/
theorem scrollTo_normalizedOffset_witness :
    normalizedOffset (scrollTo c8State 35) = 35 :=
  scrollTo_normalizedOffset c8State 35 (by decide) (by decide)

end QHexView
